import Mathlib

/-!
Verification development for the Kokrokooo coupon management application.

The definitions below are a shallow embedding of the Python source:
`app/utils.py` (temporal rules), `app/models.py` (the Coupon and AuditLog
records) and `app/routes.py` (registration, the redemption gate, the
spreadsheet import pipeline and the import confirmation step).

Modelling conventions:
* timestamps (`datetime`) are integers counting seconds, so
  `timedelta(hours=v)` is `3600 * v` and `timedelta(days=v)` is `86400 * v`;
* a nullable value (`None` in Python, a `NaN` cell in pandas) is `Option`;
* Python truthiness of `x or d` on numbers/strings is made explicit by the
  `pyOr*` helpers (`None`, `0` and `""` are falsy);
* Python `str.lower()` and `str.strip()` are `lowStr` and `trimStr`,
  written over the character list so that concrete instances evaluate;
* external parsers the source calls (`dateutil`'s `parse` inside
  `parse_issued_at`, `int(float(s))` on a cell, `int(s)` on a form field)
  are uninterpreted parameters: every parser returns `Option Int`
  (`none` models a raised exception / a `None` result);
* the database session is explicit state (`DB`); where the source wraps
  `db.session.commit()` in `try/except`, the commit outcome is an explicit
  boolean oracle `commitOk`.
-/

namespace Kokrokooo

/-- ASCII lowercasing of one character (model of Python `str.lower()`
per character; the data of this application is ASCII). -/
def lowChar (c : Char) : Char :=
  if 65 ≤ c.toNat ∧ c.toNat ≤ 90 then Char.ofNat (c.toNat + 32) else c

/-- Model of Python `s.lower()`. -/
def lowStr (s : String) : String := ⟨s.data.map lowChar⟩

/-- Whitespace for `str.strip()`. -/
def isWs (c : Char) : Bool := c = ' ' || c = '\t' || c = '\n' || c = '\r'

/-- Model of Python `s.strip()`: drop whitespace from both ends. -/
def trimStr (s : String) : String :=
  ⟨((s.data.dropWhile isWs).reverse.dropWhile isWs).reverse⟩

/-- Python `x or d` where `x : Option Int` (falsy: `None` and `0`). -/
def pyOrInt (x : Option Int) (d : Int) : Int :=
  match x with
  | none => d
  | some v => if v = 0 then d else v

/-- Python `x or d` where `x : Option String` (falsy: `None` and `""`). -/
def pyOrStr (x : Option String) (d : String) : String :=
  match x with
  | none => d
  | some s => if s = "" then d else s

/-- Model of `"" if pd.isna(c) else str(c).strip()` on a cell. -/
def cellStr (c : Option String) : String :=
  match c with
  | none => ""
  | some s => trimStr s

/-- Model of `utils.compute_valid_to(valid_from, validity_value, validity_unit)`.
`valid_from is None` defaults to `now` (made an explicit argument);
`int(validity_value)` failing (modelled by `none`) falls back to `0`;
`(validity_unit or '').lower() == 'hours'` selects hours, anything else
is days. -/
def compute_valid_to (now : Int) (valid_from : Option Int)
    (validity_value : Option Int) (validity_unit : Option String) : Int :=
  let vf := valid_from.getD now
  let v := validity_value.getD 0
  if lowStr (pyOrStr validity_unit "") = "hours" then vf + 3600 * v
  else vf + 86400 * v

/-- The `Coupon` row of `app/models.py` (the autoincrement `id` is dropped;
list position plays its role). -/
structure Coupon where
  code : String
  description : Option String
  issued_at : Option Int
  valid_from : Option Int
  valid_to : Option Int
  validity_value : Option Int
  validity_unit : Option String
  issued_to : Option String
  tags : Option String
  max_redemptions : Option Int
  redeemed_count : Int
deriving Repr, DecidableEq

/-- The `AuditLog` row of `app/models.py` (id and timestamp omitted). -/
structure AuditLog where
  user : String
  action : String
  coupon_code : String
  details : String
deriving Repr, DecidableEq

/-- The database session state: the coupons table and the audit log table. -/
structure DB where
  coupons : List Coupon
  logs : List AuditLog
deriving Repr, DecidableEq

/-- Model of `routes._status_for_coupon(c, at)`: `Upcoming` if `at < valid_from`,
else `Expired` if `valid_to` is set and `at > valid_to`, else `Maxed` if
`(redeemed_count or 0) >= (max_redemptions or 1)`, else `Active`. -/
def _status_for_coupon (c : Coupon) (t : Int) : String :=
  if (match c.valid_from with | some vf => decide (t < vf) | none => false) then "Upcoming"
  else if (match c.valid_to with | some vt => decide (vt < t) | none => false) then "Expired"
  else if pyOrInt (some c.redeemed_count) 0 ≥ pyOrInt c.max_redemptions 1 then "Maxed"
  else "Active"

example : compute_valid_to 0 (some 10) (some 2) (some "Hours") = 10 + 7200 := by decide
example : compute_valid_to 0 (some 10) (some 2) (some "h") = 10 + 172800 := by decide
example : compute_valid_to 5 none none none = 5 := by decide

/-! ## Redemption gate: `/api/redeem_mark` (routes.py lines 259-285) -/

/-- Outcome of `api_redeem_mark`, one constructor per return site. -/
inductive MarkResult where
  | missingCode
  | notFound
  | expired
  | notYetActive
  | ceilingReached
  | ok (redeemed_count : Int) (max_redemptions : Option Int)
deriving Repr, DecidableEq

/-- The new state of a coupon list after `coupon.redeemed_count += 1` on the
coupon with the given code is committed. -/
def bumpCoupon (coupons : List Coupon) (code : String) : List Coupon :=
  coupons.map (fun x => if x.code = code then { x with redeemed_count := x.redeemed_count + 1 } else x)

/-- Model of `routes.api_redeem_mark` as a state transition. The checks run in source
order: missing code, coupon lookup, `now > valid_to`, `now < valid_from`,
`max_redemptions is not None and redeemed_count >= max_redemptions`; on
success the count is incremented, one audit log entry with
`details = "Redeemed #<new count>"` is appended, and the session commits. -/
def api_redeem_mark (now : Int) (inp : Option String) (db : DB) : MarkResult × DB :=
  let code := trimStr (pyOrStr inp "")
  if code = "" then (.missingCode, db)
  else
    match db.coupons.find? (fun c => c.code = code) with
    | none => (.notFound, db)
    | some c =>
      if (match c.valid_to with | some vt => decide (vt < now) | none => false) then (.expired, db)
      else if (match c.valid_from with | some vf => decide (now < vf) | none => false) then (.notYetActive, db)
      else if (match c.max_redemptions with | some m => decide (c.redeemed_count ≥ m) | none => false) then (.ceilingReached, db)
      else
        let n := c.redeemed_count + 1
        let log : AuditLog := ⟨"admin", "redeem", code, "Redeemed #" ++ toString n⟩
        (.ok n c.max_redemptions, ⟨bumpCoupon db.coupons code, db.logs ++ [log]⟩)

/-! ## Two concurrent `mark` calls on the same coupon

Each request handler runs in its own database session: it first loads the
coupon (`Coupon.query.filter_by(code=...).first()`), which snapshots
`redeemed_count` into the session object, then performs the ceiling check
and the write `coupon.redeemed_count += 1; db.session.commit()` against
that snapshot.  The interleaving of the two sessions' load and
check-and-commit phases is an explicit schedule.  The coupon is inside its
validity window, so the expiry and not-yet-active checks pass and only the
ceiling check matters. -/

/-- One in-flight `mark` request: the `redeemed_count` snapshot taken when
the coupon row was loaded, and the request's outcome once it commits
(`some true` = redeemed, `some false` = ceiling reached). -/
structure MarkSession where
  snapshot : Option Int
  result : Option Bool
deriving Repr, DecidableEq

/-- Shared coupon state plus two in-flight `mark` requests. -/
structure RaceState where
  count : Int
  sa : MarkSession
  sb : MarkSession
deriving Repr, DecidableEq

/-- Atomic events of a two-request interleaving: each request first loads
the coupon, then runs check-increment-commit on its session object. -/
inductive RaceStep where
  | loadA | loadB | commitA | commitB
deriving Repr, DecidableEq

/-- The session-local check-and-commit of `api_redeem_mark`: the ceiling
check reads the session's stale snapshot, and the UPDATE writes the
absolute value `snapshot + 1`. -/
def sessionCommit (maxR : Int) (count : Int) (s : MarkSession) : Int × MarkSession :=
  match s.snapshot with
  | none => (count, s)
  | some snap =>
    if snap ≥ maxR then (count, { s with result := some false })
    else (snap + 1, { s with result := some true })

/-- Execute one step of the interleaving. -/
def raceStep (maxR : Int) (s : RaceState) : RaceStep → RaceState
  | .loadA => { s with sa := { s.sa with snapshot := some s.count } }
  | .loadB => { s with sb := { s.sb with snapshot := some s.count } }
  | .commitA =>
      let (c, sa) := sessionCommit maxR s.count s.sa
      { s with count := c, sa := sa }
  | .commitB =>
      let (c, sb) := sessionCommit maxR s.count s.sb
      { s with count := c, sb := sb }

/-- Run a schedule of steps. -/
def runRace (maxR : Int) (sched : List RaceStep) (s : RaceState) : RaceState :=
  sched.foldl (raceStep maxR) s

/-- Fresh race state: `redeemed_count = 0`, neither request started. -/
def raceStart : RaceState := ⟨0, ⟨none, none⟩, ⟨none, none⟩⟩

/-! ## External parsers

The source calls library parsers the embedding leaves uninterpreted:
`utils.parse_issued_at` (dateutil, returns `None` on failure),
`int(float(s))` on a spreadsheet cell, and `int(s)` on a form field.
Each is a function `String → Option Int` where `none` models a raised
exception or a `None` result. -/
structure Parsers where
  parseIssuedAt : String → Option Int
  parseNum : String → Option Int
  parseIntStr : String → Option Int

/-! ## Coupon registration: `/register` (routes.py lines 133-208) -/

/-- The POST form of the register page; a missing field is `none`. -/
structure RegisterForm where
  code : Option String
  description : Option String
  issued_at : Option String
  validity_value : Option String
  validity_unit : Option String
  issued_to : Option String
  tags : Option String
  max_redemptions : Option String
deriving Repr, DecidableEq

/-- Outcome of the register POST handler, one constructor per flash site. -/
inductive RegisterResult where
  | codeRequired
  | duplicate
  | created
  | failed
deriving Repr, DecidableEq

/-- Model of `routes.register` (POST branch) as a state transition.  Field intake
follows the source: `code` must be non-blank; `int(validity_value)` falls
back to 0; `max_redemptions` falls back to 1 on blank, on a parse failure
and on a value below 1; `issued_at` falls back to `now` when blank or
unparsable; the hours aliases `("hours","hour","h")` are matched
case-insensitively, anything else is days; a duplicate code aborts; the
commit outcome is the `commitOk` oracle. -/
def register (P : Parsers) (commitOk : Bool) (now : Int)
    (form : RegisterForm) (db : DB) : RegisterResult × DB :=
  let code := trimStr (pyOrStr form.code "")
  if code = "" then (.codeRequired, db)
  else
    let description := trimStr (pyOrStr form.description "")
    let issuedRaw := trimStr (pyOrStr form.issued_at "")
    let validity_value := (P.parseIntStr (pyOrStr form.validity_value "0")).getD 0
    let validity_unit := pyOrStr form.validity_unit "days"
    let issued_to := trimStr (pyOrStr form.issued_to "")
    let tags := trimStr (pyOrStr form.tags "")
    let max_redemptions : Int :=
      match form.max_redemptions with
      | none => 1
      | some s =>
        if s = "" then 1
        else
          match P.parseIntStr s with
          | none => 1
          | some m => if m < 1 then 1 else m
    let valid_from := if issuedRaw = "" then now else (P.parseIssuedAt issuedRaw).getD now
    let valid_to :=
      if lowStr validity_unit = "hours" ∨ lowStr validity_unit = "hour" ∨ lowStr validity_unit = "h"
      then valid_from + 3600 * validity_value
      else valid_from + 86400 * validity_value
    match db.coupons.find? (fun c => c.code = code) with
    | some _ => (.duplicate, db)
    | none =>
      if commitOk then
        let coupon : Coupon :=
          { code := code, description := some description,
            issued_at := some valid_from, valid_from := some valid_from,
            valid_to := some valid_to, validity_value := some validity_value,
            validity_unit := some validity_unit, issued_to := some issued_to,
            tags := some tags, max_redemptions := some max_redemptions,
            redeemed_count := 0 }
        let log : AuditLog := ⟨"admin", "create", code, "created via register form"⟩
        (.created, ⟨db.coupons ++ [coupon], db.logs ++ [log]⟩)
      else (.failed, db)

/-! ## Spreadsheet import pipeline: `/import` POST (routes.py lines 291-493)

The model starts after pandas has produced the dataframe: the input is the
raw header (a list of column-name strings) and the list of data rows
projected onto the eight required columns.  A cell is `Option String`,
`none` for a pandas `NaN`. -/

/-- One data row of the uploaded table. -/
structure Row where
  code : Option String
  description : Option String
  issued_at : Option String
  validity_value : Option String
  validity_unit : Option String
  issued_to : Option String
  tags : Option String
  max_redemptions : Option String
deriving Repr, DecidableEq

/-- The list `routes._EXPECTED_COLS`. -/
def _EXPECTED_COLS : List String :=
  ["code", "description", "issued_at", "validity_value", "validity_unit",
   "issued_to", "tags", "max_redemptions"]

/-- Header normalization `str(c).strip().lower()`. -/
def normalizeCols (cols : List String) : List String :=
  cols.map (fun c => lowStr (trimStr c))

/-- A staged row in the exact shape of the cleaned dict written to the
temp JSON batch (routes.py lines 413-425).  The timestamp fields are
`Option Int` because the confirm step re-parses the serialized strings and
leaves the field null on a parse failure. -/
structure Cleaned where
  code : String
  description : Option String
  issued_at : Option Int
  valid_from : Option Int
  valid_to : Option Int
  validity_value : Int
  validity_unit : String
  issued_to : Option String
  tags : Option String
  max_redemptions : Int
  redeemed_count : Int
deriving Repr, DecidableEq

/-- The `issued_at` cell intake (routes.py lines 354-364): blank cells parse to
`None`, otherwise `parse_issued_at(str(cell).strip())`, with every parse
failure collapsing to `None`. -/
def resolveIssued (P : Parsers) (cell : Option String) : Option Int :=
  match cell with
  | none => none
  | some s => if trimStr s = "" then none else P.parseIssuedAt (trimStr s)

/-- The `validity_unit` cell intake (routes.py lines 380-391): blank defaults
to days; the day aliases map to `"days"`, the hours aliases to `"hours"`,
anything else is invalid (`none`). -/
def resolveUnit (cell : Option String) : Option String :=
  match cell with
  | none => some "days"
  | some s =>
    if trimStr s = "" then some "days"
    else
      let u := lowStr (trimStr s)
      if u = "days" ∨ u = "day" ∨ u = "d" then some "days"
      else if u = "hours" ∨ u = "hour" ∨ u = "h" then some "hours"
      else none

/-- The `max_redemptions` cell intake (routes.py line 398): blank defaults to
1, otherwise `int(float(cell))` (`none` on a parse failure). -/
def resolveMaxRedemptions (P : Parsers) (cell : Option String) : Option Int :=
  match cell with
  | none => some 1
  | some s => if trimStr s = "" then some 1 else P.parseNum s

/-- The classification of one data row (routes.py lines 341-427). -/
inductive RowOutcome where
  | rejected (reason : String)
  | dupSkipped (code : String)
  | accepted (cleaned : Cleaned)
deriving Repr, DecidableEq

/-- Validate one data row against the duplicate set `existing`, mirroring
the body of the row loop in source order: missing code, duplicate code,
`issued_at`, `validity_value` (must be a parseable number `≥ 0`),
`validity_unit`, `max_redemptions` (blank defaults to 1, otherwise must
parse and be `≥ 1`), then `compute_valid_to` and the cleaned dict. -/
def procRow (P : Parsers) (now : Int) (existing : List String) (r : Row) : RowOutcome :=
  let code := cellStr r.code
  if code = "" then .rejected "Missing code"
  else if code ∈ existing then .dupSkipped code
  else
    match resolveIssued P r.issued_at with
    | none => .rejected "Invalid issued_at"
    | some pi =>
      match r.validity_value with
      | none => .rejected "Invalid validity_value"
      | some vs =>
        match P.parseNum vs with
        | none => .rejected "Invalid validity_value"
        | some v =>
          if v < 0 then .rejected "Invalid validity_value"
          else
            match resolveUnit r.validity_unit with
            | none => .rejected "Invalid validity_unit"
            | some unit =>
              match resolveMaxRedemptions P r.max_redemptions with
              | none => .rejected "Invalid max_redemptions"
              | some m =>
                if m < 1 then .rejected "Invalid max_redemptions"
                else
                  let vt := compute_valid_to now (some pi) (some v) (some unit)
                  .accepted
                    { code := code, description := r.description.map trimStr,
                      issued_at := some pi, valid_from := some pi,
                      valid_to := some vt, validity_value := v,
                      validity_unit := unit,
                      issued_to := r.issued_to.map trimStr,
                      tags := r.tags.map trimStr,
                      max_redemptions := m, redeemed_count := 0 }

/-- Accumulator of the row loop: the in-memory duplicate set
`existing_codes` and the three buckets `valid_rows`, `skipped`, `errors`,
each tagged with the 1-indexed spreadsheet row number. -/
structure StageAcc where
  existing : List String
  valid : List (Nat × Cleaned)
  skipped : List (Nat × String)
  errors : List (Nat × String)
deriving Repr, DecidableEq

/-- One iteration of the row loop: append the row to exactly one bucket;
an accepted row also adds its code to the duplicate set. -/
def stageStep (P : Parsers) (now : Int) (acc : StageAcc) (ir : Nat × Row) : StageAcc :=
  match procRow P now acc.existing ir.2 with
  | .rejected reason => { acc with errors := acc.errors ++ [(ir.1, reason)] }
  | .dupSkipped c => { acc with skipped := acc.skipped ++ [(ir.1, c)] }
  | .accepted cl =>
      { acc with valid := acc.valid ++ [(ir.1, cl)],
                 existing := acc.existing ++ [cl.code] }

/-- Model of `rownum = int(idx) + 2`: pair each row with its spreadsheet row number
(first data row is row 2). -/
def numberRows (rows : List Row) : List (Nat × Row) :=
  rows.enum.map (fun p => (p.1 + 2, p.2))

/-- Run the row loop over a whole file. -/
def stageRows (P : Parsers) (now : Int) (existingCodes : List String)
    (rows : List Row) : StageAcc :=
  (numberRows rows).foldl (stageStep P now) ⟨existingCodes, [], [], []⟩

/-- The rendered import result: the three buckets plus whether a temp
batch file (`valid_rows` non-empty) and an errors file (`errors`
non-empty) were written. -/
structure ImportPreview where
  valid : List (Nat × Cleaned)
  skipped : List (Nat × String)
  errors : List (Nat × String)
  tempFile : Bool
  errorFile : Bool
deriving Repr, DecidableEq

/-- Outcome of the import POST handler after the dataframe is read:
either the strict missing-columns abort (no row processed, nothing
written) or a preview. -/
inductive ImportResult where
  | missingColumns (missing : List String)
  | preview (p : ImportPreview)
deriving Repr, DecidableEq

/-- Model of `routes.import_excel` (POST branch, after the dataframe is read):
normalize headers, abort wholesale when a required column is missing,
otherwise run the row loop and build the preview. -/
def import_excel (P : Parsers) (now : Int) (existingCodes : List String)
    (rawCols : List String) (rows : List Row) : ImportResult :=
  let cols := normalizeCols rawCols
  let missing := _EXPECTED_COLS.filter (fun c => decide (c ∉ cols))
  if missing.isEmpty then
    let acc := stageRows P now existingCodes rows
    .preview ⟨acc.valid, acc.skipped, acc.errors, !acc.valid.isEmpty, !acc.errors.isEmpty⟩
  else .missingColumns missing

/-! ## Import confirmation: `/import_confirm` (routes.py lines 499-610) -/

/-- One decoded entry of a staged batch file; `data = none` models an
entry whose `"data"` key is missing or not a dict. -/
structure BatchItem where
  row : Nat
  data : Option Cleaned
deriving Repr, DecidableEq

/-- Durable state seen by the confirm step: the coupon store and the
instance directory of staged batch files, keyed by filename. -/
structure ConfirmState where
  store : List Coupon
  files : List (String × List BatchItem)
deriving Repr, DecidableEq

/-- Model of `os.remove(temp_path)`: drop the named file. -/
def removeFile (name : String) (files : List (String × List BatchItem)) :
    List (String × List BatchItem) :=
  files.filter (fun p => decide (p.1 ≠ name))

/-- Rebuild a `Coupon` from a staged entry (routes.py lines 556-592):
`valid_from` is set to the re-parsed `issued_at`, and a timestamp whose
re-parse failed stays null. -/
def couponOfCleaned (d : Cleaned) : Coupon :=
  { code := d.code, description := d.description, issued_at := d.issued_at,
    valid_from := d.issued_at, valid_to := d.valid_to,
    validity_value := some d.validity_value,
    validity_unit := some d.validity_unit,
    issued_to := d.issued_to, tags := d.tags,
    max_redemptions := some d.max_redemptions,
    redeemed_count := d.redeemed_count }

/-- Outcome of the confirm handler, one constructor per flash site. -/
inductive ConfirmResult where
  | missingParam
  | notFound
  | empty
  | invalidBatch
  | commitFailed
  | success (inserted : Nat)
deriving Repr, DecidableEq

/-- Model of `routes.import_confirm` as a state transition.  A blank/missing
`temp_file` aborts; an unknown file aborts; an empty batch is deleted and
aborts; a batch with a structurally bad entry is deleted and aborts;
otherwise all rows are inserted and committed as one unit — on a commit
failure the session rolls back (the store is unchanged).  The temp file
removal sits in a `finally` block, so it runs on the success path AND on
the commit-failure path. -/
def import_confirm (commitOk : Bool) (tempFile : Option String)
    (st : ConfirmState) : ConfirmResult × ConfirmState :=
  let name := pyOrStr tempFile ""
  if name = "" then (.missingParam, st)
  else
    match st.files.lookup name with
    | none => (.notFound, st)
    | some batch =>
      if batch.isEmpty then (.empty, { st with files := removeFile name st.files })
      else if batch.any (fun it => it.data.isNone) then
        (.invalidBatch, { st with files := removeFile name st.files })
      else if commitOk then
        (.success batch.length,
         { store := st.store ++ batch.filterMap (fun it => it.data.map couponOfCleaned),
           files := removeFile name st.files })
      else (.commitFailed, { st with files := removeFile name st.files })

/-! ## Claims -/

/-- Helper: `compute_valid_to` on a non-empty unit string is an hours/days
branch on `lowStr u = "hours"`. -/
lemma compute_valid_to_some (now : Int) (vf v : Option Int) (u : String) (hu : u ≠ "") :
    compute_valid_to now vf v (some u) =
      if lowStr u = "hours" then vf.getD now + 3600 * v.getD 0
      else vf.getD now + 86400 * v.getD 0 := by
  simp [compute_valid_to, pyOrStr, hu]

/-- C3 counterexample: `compute_valid_to` does NOT treat `"h"` like
`"hours"` — `utils.compute_valid_to` only compares `lower()` against the
exact string `"hours"`, so `"h"` falls into the days branch (one hour vs
one day from epoch 0). -/
theorem c3_units_counterexample :
    ¬ (compute_valid_to 0 (some 0) (some 1) (some "hours") =
       compute_valid_to 0 (some 0) (some 1) (some "h")) := by decide

/-- C3 (amended): `compute_valid_to` normalizes the unit case-insensitively
to hours only for the exact string `"hours"` (so `"Hours"`, `"HOURS"` and
`"hours"` agree), while `"hour"`, `"h"` and every other unit string are
treated as days. -/
theorem c3_unit_normalization (now : Int) (vf v : Option Int) :
    compute_valid_to now vf v (some "Hours") = compute_valid_to now vf v (some "hours") ∧
    compute_valid_to now vf v (some "HOURS") = compute_valid_to now vf v (some "hours") ∧
    compute_valid_to now vf v (some "hour") = compute_valid_to now vf v (some "days") ∧
    compute_valid_to now vf v (some "h") = compute_valid_to now vf v (some "days") ∧
    (∀ u : String, lowStr u ≠ "hours" →
      compute_valid_to now vf v (some u) = vf.getD now + 86400 * v.getD 0) := by
  refine ⟨?_, ?_, ?_, ?_, ?_⟩
  · rw [compute_valid_to_some now vf v "Hours" (by decide),
      compute_valid_to_some now vf v "hours" (by decide),
      show lowStr "Hours" = "hours" by decide,
      show lowStr "hours" = "hours" by decide]
  · rw [compute_valid_to_some now vf v "HOURS" (by decide),
      compute_valid_to_some now vf v "hours" (by decide),
      show lowStr "HOURS" = "hours" by decide,
      show lowStr "hours" = "hours" by decide]
  · rw [compute_valid_to_some now vf v "hour" (by decide),
      compute_valid_to_some now vf v "days" (by decide),
      if_neg (show ¬ lowStr "hour" = "hours" by decide),
      if_neg (show ¬ lowStr "days" = "hours" by decide)]
  · rw [compute_valid_to_some now vf v "h" (by decide),
      compute_valid_to_some now vf v "days" (by decide),
      if_neg (show ¬ lowStr "h" = "hours" by decide),
      if_neg (show ¬ lowStr "days" = "hours" by decide)]
  · intro u hlow
    by_cases hu : u = ""
    · subst hu
      simp [compute_valid_to, pyOrStr, show ¬ lowStr "" = "hours" by decide]
    · rw [compute_valid_to_some now vf v u hu, if_neg hlow]

/-- C3 witness: the amended normalization evaluated at a concrete input
(`valid_from = 0`, quantity 2, and the unit string `"weeks"` for the
catch-all days case). -/
theorem c3_unit_normalization_witness :
    compute_valid_to 0 (some 0) (some 2) (some "Hours") =
        compute_valid_to 0 (some 0) (some 2) (some "hours") ∧
    compute_valid_to 0 (some 0) (some 2) (some "weeks") = 0 + 86400 * 2 :=
  ⟨(c3_unit_normalization 0 (some 0) (some 2)).1,
   (c3_unit_normalization 0 (some 0) (some 2)).2.2.2.2 "weeks" (by decide)⟩

/-- C5: in `_status_for_coupon`, for a coupon whose `valid_from` is not in
the future, whose `valid_to` is present and strictly before the evaluation
time, and whose (null-coerced) `redeemed_count` is at least its
(null-coerced) `max_redemptions`, the expiry check fires before the
ceiling check: the status is `Expired`, never `Maxed`. -/
theorem c5_expired_precedes_maxed (c : Coupon) (t vt : Int)
    (hvf : ∀ vf, c.valid_from = some vf → vf ≤ t)
    (hvt : c.valid_to = some vt) (hlt : vt < t)
    (hmax : pyOrInt (some c.redeemed_count) 0 ≥ pyOrInt c.max_redemptions 1) :
    _status_for_coupon c t = "Expired" ∧ _status_for_coupon c t ≠ "Maxed" := by
  have h1 : (match c.valid_from with | some vf => decide (t < vf) | none => false) = false := by
    cases hv : c.valid_from with
    | none => rfl
    | some vf => simpa using not_lt.mpr (hvf vf hv)
  have h2 : (match c.valid_to with | some vt2 => decide (vt2 < t) | none => false) = true := by
    rw [hvt]; simpa using hlt
  have hexp : _status_for_coupon c t = "Expired" := by
    unfold _status_for_coupon
    rw [h1, h2]
    simp
  exact ⟨hexp, by rw [hexp]; decide⟩

/-- C5 witness: an expired-and-maxed coupon (`valid_from = 0`,
`valid_to = 5`, `redeemed_count = 1 = max_redemptions`) evaluated at time
10 reports `Expired`. -/
theorem c5_expired_precedes_maxed_witness :
    _status_for_coupon
        ⟨"X", none, none, some 0, some 5, none, none, none, none, some 1, 1⟩ 10 = "Expired" ∧
    _status_for_coupon
        ⟨"X", none, none, some 0, some 5, none, none, none, none, some 1, 1⟩ 10 ≠ "Maxed" :=
  c5_expired_precedes_maxed _ 10 5 (fun vf h => by cases h; decide) rfl (by decide) (by decide)

/-- C1 evaluation at the failing input: one well-formed staged row, a
store-level commit failure (`commitOk = false`).  The unit rolls back
(zero coupons created) and the failure is reported, but the `finally`
cleanup of `import_confirm` deletes the staged batch file anyway — the
resulting file list is empty, contradicting the claim that the batch is
kept for retry. -/
theorem c1_commit_failure_deletes_batch :
    import_confirm false (some "import_batch_1")
        ⟨[], [("import_batch_1",
               [⟨2, some ⟨"A10", none, some 100, some 100, some 532100, 5, "days",
                          none, none, 1, 0⟩⟩])]⟩ =
      (.commitFailed, ⟨[], []⟩) := by decide

/-- C2 evaluation: two concurrent `mark` requests on a coupon with
`max_redemptions = 1`, `redeemed_count = 0`.  Under the interleaving
load-A, load-B, commit-A, commit-B both requests pass the ceiling check
against their stale snapshots and BOTH report success (a lost update:
final count 1 with two successes) — whereas the fully serialized schedule
load-A, commit-A, load-B, commit-B gives exactly one success and one
ceiling failure.  The source therefore does not serialize the
read-check-increment-write. -/
theorem c2_mark_race_not_serialized :
    runRace 1 [.loadA, .loadB, .commitA, .commitB] raceStart =
        ⟨1, ⟨some 0, some true⟩, ⟨some 0, some true⟩⟩ ∧
    runRace 1 [.loadA, .commitA, .loadB, .commitB] raceStart =
        ⟨1, ⟨some 0, some true⟩, ⟨some 1, some false⟩⟩ := by decide

/-- C4: a successful `mark` increments the coupon's `redeemed_count` by
exactly 1 (only the matched coupon changes, via `bumpCoupon`) and appends
exactly one audit log entry recording the new count; every failing `mark`
(missing code, not found, expired, not yet active, ceiling reached) leaves
the database unchanged. -/
theorem c4_mark_success_increments_failure_preserves
    (now : Int) (inp : Option String) (db : DB) :
    (∀ n m db2, api_redeem_mark now inp db = (.ok n m, db2) →
      ∃ c, db.coupons.find? (fun x => x.code = trimStr (pyOrStr inp "")) = some c ∧
        n = c.redeemed_count + 1 ∧ m = c.max_redemptions ∧
        db2.coupons = bumpCoupon db.coupons (trimStr (pyOrStr inp "")) ∧
        db2.logs = db.logs ++
          [⟨"admin", "redeem", trimStr (pyOrStr inp ""),
            "Redeemed #" ++ toString (c.redeemed_count + 1)⟩]) ∧
    (∀ r db2, api_redeem_mark now inp db = (r, db2) →
      (∀ n m, r ≠ .ok n m) → db2 = db) := by
  constructor
  · intro n m db2 h
    simp only [api_redeem_mark] at h
    split at h
    · simp at h
    · split at h
      · simp at h
      · rename_i c hfind
        split at h
        · simp at h
        · split at h
          · simp at h
          · split at h
            · simp at h
            · simp only [Prod.mk.injEq, MarkResult.ok.injEq] at h
              obtain ⟨⟨hn, hm⟩, hdb⟩ := h
              exact ⟨c, hfind, hn.symm, hm.symm, by rw [← hdb], by rw [← hdb]⟩
  · intro r db2 h hne
    simp only [api_redeem_mark] at h
    split at h
    · simp only [Prod.mk.injEq] at h
      exact h.2.symm
    · split at h
      · simp only [Prod.mk.injEq] at h
        exact h.2.symm
      · split at h
        · simp only [Prod.mk.injEq] at h
          exact h.2.symm
        · split at h
          · simp only [Prod.mk.injEq] at h
            exact h.2.symm
          · split at h
            · simp only [Prod.mk.injEq] at h
              exact h.2.symm
            · simp only [Prod.mk.injEq] at h
              exact absurd h.1.symm (hne _ _)

/-- C4 witness: a database holding one active coupon `"A"`
(`max_redemptions = 2`, `redeemed_count = 0`); marking it at time 50
succeeds and instantiates the success half of the claim. -/
theorem c4_mark_witness :
    ∃ c, (DB.mk [⟨"A", none, none, some 0, some 100, none, none, none, none, some 2, 0⟩]
           []).coupons.find? (fun x => x.code = trimStr (pyOrStr (some "A") "")) = some c ∧
      (1 : Int) = c.redeemed_count + 1 ∧ some (2 : Int) = c.max_redemptions ∧
      (DB.mk [⟨"A", none, none, some 0, some 100, none, none, none, none, some 2, 1⟩]
        [⟨"admin", "redeem", "A", "Redeemed #1"⟩]).coupons =
        bumpCoupon (DB.mk [⟨"A", none, none, some 0, some 100, none, none, none, none, some 2, 0⟩]
          []).coupons (trimStr (pyOrStr (some "A") "")) ∧
      (DB.mk [⟨"A", none, none, some 0, some 100, none, none, none, none, some 2, 1⟩]
        [⟨"admin", "redeem", "A", "Redeemed #1"⟩]).logs =
        (DB.mk [⟨"A", none, none, some 0, some 100, none, none, none, none, some 2, 0⟩]
          []).logs ++
          [⟨"admin", "redeem", trimStr (pyOrStr (some "A") ""),
            "Redeemed #" ++ toString (c.redeemed_count + 1)⟩] :=
  (c4_mark_success_increments_failure_preserves 50 (some "A")
      ⟨[⟨"A", none, none, some 0, some 100, none, none, none, none, some 2, 0⟩], []⟩).1
    1 (some 2)
    ⟨[⟨"A", none, none, some 0, some 100, none, none, none, none, some 2, 1⟩],
     [⟨"admin", "redeem", "A", "Redeemed #1"⟩]⟩
    (by decide)

/-- C6: when the normalized header lacks at least one required column,
the import aborts wholesale with the missing-columns error: the result is
`missingColumns` (so no staged batch and no error report exist and no
bucket is produced), and the outcome does not depend on the data rows at
all. -/
theorem c6_missing_columns_aborts (P : Parsers) (now : Int) (ex : List String)
    (rawCols : List String) (rows : List Row)
    (h : ∃ c ∈ _EXPECTED_COLS, c ∉ normalizeCols rawCols) :
    import_excel P now ex rawCols rows =
      .missingColumns (_EXPECTED_COLS.filter (fun c => decide (c ∉ normalizeCols rawCols))) ∧
    ∀ rows2 : List Row,
      import_excel P now ex rawCols rows2 = import_excel P now ex rawCols rows := by
  obtain ⟨c, hc, hnc⟩ := h
  have hmem : c ∈ _EXPECTED_COLS.filter (fun c => decide (c ∉ normalizeCols rawCols)) :=
    List.mem_filter.mpr ⟨hc, by simpa using hnc⟩
  have hne : (_EXPECTED_COLS.filter (fun c => decide (c ∉ normalizeCols rawCols))).isEmpty
      = false := by
    cases hl : _EXPECTED_COLS.filter (fun c => decide (c ∉ normalizeCols rawCols)) with
    | nil => rw [hl] at hmem; cases hmem
    | cons a l => rfl
  have key : ∀ rs : List Row, import_excel P now ex rawCols rs =
      .missingColumns (_EXPECTED_COLS.filter (fun c => decide (c ∉ normalizeCols rawCols))) := by
    intro rs
    simp only [import_excel]
    rw [hne]
    simp
  exact ⟨key rows, fun rows2 => (key rows2).trans (key rows).symm⟩

/-- C6 witness: a file whose only header is `description` aborts with the
seven other required columns reported missing, regardless of rows. -/
theorem c6_missing_columns_witness :
    import_excel ⟨fun _ => none, fun _ => none, fun _ => none⟩ 0 [] ["description"] [] =
      .missingColumns ["code", "issued_at", "validity_value", "validity_unit",
                       "issued_to", "tags", "max_redemptions"] := by
  have h := (c6_missing_columns_aborts ⟨fun _ => none, fun _ => none, fun _ => none⟩
    0 [] ["description"] [] ⟨"code", by decide, by decide⟩).1
  rw [h]
  decide

/-- C10: the register handler never rejects a submission over
`max_redemptions`: with a non-blank, non-duplicate code, a
`max_redemptions` field that is absent, blank, unparsable, or below 1 is
silently coerced to 1 and the coupon is created. -/
theorem c10_register_coerces_max_redemptions (P : Parsers) (now : Int)
    (form : RegisterForm) (db : DB)
    (hcode : trimStr (pyOrStr form.code "") ≠ "")
    (hdup : db.coupons.find? (fun c => c.code = trimStr (pyOrStr form.code "")) = none)
    (hmax : form.max_redemptions = none ∨ form.max_redemptions = some "" ∨
            (∃ s, form.max_redemptions = some s ∧ P.parseIntStr s = none) ∨
            (∃ s m, form.max_redemptions = some s ∧ P.parseIntStr s = some m ∧ m < 1)) :
    ∃ coupon : Coupon,
      register P true now form db =
        (.created, ⟨db.coupons ++ [coupon], db.logs ++
          [⟨"admin", "create", coupon.code, "created via register form"⟩]⟩) ∧
      coupon.max_redemptions = some 1 ∧
      coupon.code = trimStr (pyOrStr form.code "") := by
  have hm : (match form.max_redemptions with
      | none => (1 : Int)
      | some s =>
        if s = "" then 1
        else
          match P.parseIntStr s with
          | none => 1
          | some m => if m < 1 then 1 else m) = 1 := by
    rcases hmax with h | h | ⟨s, hs, hp⟩ | ⟨s, m, hs, hp, hm1⟩
    · rw [h]
    · rw [h]; simp
    · rw [hs]
      by_cases he : s = ""
      · simp [he]
      · simp [he, hp]
    · rw [hs]
      by_cases he : s = ""
      · simp [he]
      · simp [he, hp, if_pos hm1]
  simp only [register, hcode, hdup, hm, if_false, ite_false, if_true, ite_true]
  exact ⟨_, rfl, rfl, rfl⟩

/-- C10 witness: registering code `"Z"` with `max_redemptions = "abc"`
against an empty store (a parser that fails on `"abc"`) creates the coupon
with `max_redemptions = 1`. -/
theorem c10_register_witness :
    ∃ coupon : Coupon,
      register ⟨fun _ => none, fun _ => none, fun _ => none⟩ true 0
          ⟨some "Z", none, none, none, none, none, none, some "abc"⟩ ⟨[], []⟩ =
        (.created, ⟨[] ++ [coupon], [] ++
          [⟨"admin", "create", coupon.code, "created via register form"⟩]⟩) ∧
      coupon.max_redemptions = some 1 ∧
      coupon.code = trimStr (pyOrStr (some "Z") "") :=
  c10_register_coerces_max_redemptions ⟨fun _ => none, fun _ => none, fun _ => none⟩ 0
    ⟨some "Z", none, none, none, none, none, none, some "abc"⟩ ⟨[], []⟩
    (by decide) rfl (Or.inr (Or.inr (Or.inl ⟨"abc", rfl, rfl⟩)))

/-- Inversion of a successful `import_excel` run: the preview is exactly
the accumulator of the row loop. -/
lemma import_excel_preview_inv (P : Parsers) (now : Int) (ex : List String)
    (rawCols : List String) (rows : List Row) (p : ImportPreview)
    (hp : import_excel P now ex rawCols rows = .preview p) :
    p = ⟨(stageRows P now ex rows).valid, (stageRows P now ex rows).skipped,
         (stageRows P now ex rows).errors,
         !(stageRows P now ex rows).valid.isEmpty,
         !(stageRows P now ex rows).errors.isEmpty⟩ := by
  simp only [import_excel] at hp
  split at hp
  · exact (ImportResult.preview.inj hp).symm
  · simp at hp

/-- The multiset of row numbers across the three buckets. -/
def bucketNums (acc : StageAcc) : List Nat :=
  acc.valid.map Prod.fst ++ acc.skipped.map Prod.fst ++ acc.errors.map Prod.fst

/-- One loop iteration adds exactly its row number to the buckets. -/
lemma bucketNums_step (P : Parsers) (now : Int) (acc : StageAcc) (ir : Nat × Row) :
    (bucketNums (stageStep P now acc ir)).Perm (bucketNums acc ++ [ir.1]) := by
  cases hpr : procRow P now acc.existing ir.2 <;>
    · simp only [stageStep, hpr, bucketNums]
      rw [List.perm_iff_count]
      intro x
      simp only [List.count_append, List.map_append, List.map_cons, List.map_nil]
      omega

/-- Over the whole loop, the bucket row numbers are a permutation of the
input row numbers (appended to whatever was already in the buckets). -/
lemma bucketNums_foldl (P : Parsers) (now : Int) :
    ∀ (l : List (Nat × Row)) (acc : StageAcc),
      (bucketNums (l.foldl (stageStep P now) acc)).Perm (bucketNums acc ++ l.map Prod.fst) := by
  intro l
  induction l with
  | nil => intro acc; simp
  | cons hd tl ih =>
      intro acc
      simp only [List.foldl_cons, List.map_cons]
      have h3 := (ih (stageStep P now acc hd)).trans
        ((bucketNums_step P now acc hd).append_right (tl.map Prod.fst))
      have h4 : (bucketNums acc ++ [hd.1]) ++ tl.map Prod.fst =
          bucketNums acc ++ (hd.1 :: tl.map Prod.fst) := by simp
      rw [h4] at h3
      exact h3

/-- C8: when the required-column check passes, every data row lands in
exactly one of the three buckets: the accepted, skipped and rejected
counts sum to the number of data rows, and the bucket row numbers are a
permutation of the input row numbers (no row double-counted, none lost). -/
theorem c8_rows_partition (P : Parsers) (now : Int) (ex : List String)
    (rawCols : List String) (rows : List Row) (p : ImportPreview)
    (hp : import_excel P now ex rawCols rows = .preview p) :
    p.valid.length + p.skipped.length + p.errors.length = rows.length ∧
    (p.valid.map Prod.fst ++ p.skipped.map Prod.fst ++ p.errors.map Prod.fst).Perm
      ((numberRows rows).map Prod.fst) := by
  have hpp := import_excel_preview_inv P now ex rawCols rows p hp
  subst hpp
  have hperm := bucketNums_foldl P now (numberRows rows) ⟨ex, [], [], []⟩
  have hperm2 : (bucketNums (stageRows P now ex rows)).Perm ((numberRows rows).map Prod.fst) := by
    simpa [bucketNums, stageRows] using hperm
  constructor
  · have hlen := hperm2.length_eq
    simp only [bucketNums, List.length_append, List.length_map] at hlen
    simpa [numberRows] using hlen
  · exact hperm2

/-- C8 witness: a one-row file (all cells blank) under the full header:
the row is rejected (`Missing code`), and the partition property holds
with counts 0 + 0 + 1 = 1. -/
theorem c8_rows_partition_witness :
    ([] : List (Nat × Cleaned)).length + ([] : List (Nat × String)).length +
        [((2 : Nat), "Missing code")].length =
      [Row.mk none none none none none none none none].length ∧
    (([] : List (Nat × Cleaned)).map Prod.fst ++ ([] : List (Nat × String)).map Prod.fst ++
        [((2 : Nat), "Missing code")].map Prod.fst).Perm
      ((numberRows [Row.mk none none none none none none none none]).map Prod.fst) :=
  c8_rows_partition ⟨fun _ => none, fun _ => none, fun _ => none⟩ 0 [] _EXPECTED_COLS
    [Row.mk none none none none none none none none]
    ⟨[], [], [(2, "Missing code")], false, true⟩ (by decide)

/-- An accepted row carries its own (trimmed) code, which was non-blank
and not in the duplicate set when the row was processed. -/
lemma procRow_accepted_facts (P : Parsers) (now : Int) (ex : List String) (r : Row)
    (cl : Cleaned) (h : procRow P now ex r = .accepted cl) :
    cl.code = cellStr r.code ∧ cellStr r.code ≠ "" ∧ cellStr r.code ∉ ex := by
  simp only [procRow] at h
  by_cases h1 : cellStr r.code = ""
  · rw [if_pos h1] at h; simp at h
  · rw [if_neg h1] at h
    by_cases h2 : cellStr r.code ∈ ex
    · rw [if_pos h2] at h; simp at h
    · rw [if_neg h2] at h
      refine ⟨?_, h1, h2⟩
      split at h
      · simp at h
      · split at h
        · simp at h
        · split at h
          · simp at h
          · split at h
            · simp at h
            · split at h
              · simp at h
              · split at h
                · simp at h
                · split at h
                  · simp at h
                  · simp only [RowOutcome.accepted.injEq] at h
                    rw [← h]

/-- A row whose non-blank code is already in the duplicate set is skipped
as a duplicate — before any other validation runs. -/
lemma procRow_dup (P : Parsers) (now : Int) (ex : List String) (r : Row)
    (h1 : cellStr r.code ≠ "") (h2 : cellStr r.code ∈ ex) :
    procRow P now ex r = .dupSkipped (cellStr r.code) := by
  simp only [procRow]
  rw [if_neg h1, if_pos h2]

/-- One loop iteration never removes a code from the duplicate set. -/
lemma stageStep_existing_mono (P : Parsers) (now : Int) (acc : StageAcc) (ir : Nat × Row) :
    acc.existing ⊆ (stageStep P now acc ir).existing := by
  cases hpr : procRow P now acc.existing ir.2 with
  | rejected reason => simp only [stageStep, hpr]; exact List.Subset.refl _
  | dupSkipped c => simp only [stageStep, hpr]; exact List.Subset.refl _
  | accepted cl => simp only [stageStep, hpr]; exact List.subset_append_left _ _

/-- The skipped bucket only grows over the loop. -/
lemma foldl_skipped_mono (P : Parsers) (now : Int) :
    ∀ (l : List (Nat × Row)) (acc : StageAcc),
      acc.skipped ⊆ (l.foldl (stageStep P now) acc).skipped := by
  intro l
  induction l with
  | nil => intro acc; exact List.Subset.refl _
  | cons hd tl ih =>
      intro acc
      simp only [List.foldl_cons]
      refine List.Subset.trans ?_ (ih (stageStep P now acc hd))
      cases hpr : procRow P now acc.existing hd.2 with
      | rejected reason => simp only [stageStep, hpr]; exact List.Subset.refl _
      | dupSkipped c => simp only [stageStep, hpr]; exact List.subset_append_left _ _
      | accepted cl => simp only [stageStep, hpr]; exact List.Subset.refl _

/-- The duplicate set only grows over the loop. -/
lemma foldl_existing_mono (P : Parsers) (now : Int) :
    ∀ (l : List (Nat × Row)) (acc : StageAcc),
      acc.existing ⊆ (l.foldl (stageStep P now) acc).existing := by
  intro l
  induction l with
  | nil => intro acc; exact List.Subset.refl _
  | cons hd tl ih =>
      intro acc
      simp only [List.foldl_cons]
      refine List.Subset.trans ?_ (ih (stageStep P now acc hd))
      cases hpr : procRow P now acc.existing hd.2 with
      | rejected reason => simp only [stageStep, hpr]; exact List.Subset.refl _
      | dupSkipped c => simp only [stageStep, hpr]; exact List.Subset.refl _
      | accepted cl => simp only [stageStep, hpr]; exact List.subset_append_left _ _

/-- Every accepted entry either was already in the accumulator or stems
from one of the processed rows (its row number occurs in the input). -/
lemma foldl_valid_origin (P : Parsers) (now : Int) :
    ∀ (l : List (Nat × Row)) (acc : StageAcc) (x : Nat × Cleaned),
      x ∈ (l.foldl (stageStep P now) acc).valid → x ∈ acc.valid ∨ x.1 ∈ l.map Prod.fst := by
  intro l
  induction l with
  | nil =>
      intro acc x hx
      simp only [List.foldl_nil] at hx
      exact Or.inl hx
  | cons hd tl ih =>
      intro acc x hx
      simp only [List.foldl_cons] at hx
      rcases ih (stageStep P now acc hd) x hx with h | h
      · cases hpr : procRow P now acc.existing hd.2 with
        | rejected reason => rw [stageStep, hpr] at h; exact Or.inl h
        | dupSkipped c => rw [stageStep, hpr] at h; exact Or.inl h
        | accepted cl =>
            rw [stageStep, hpr] at h
            rcases List.mem_append.mp h with h' | h'
            · exact Or.inl h'
            · rw [List.mem_singleton] at h'
              exact Or.inr (by simp [h'])
      · exact Or.inr (by simp [h])

/-- Loop invariant: the duplicate set is the initial store codes plus the
accepted codes, the accepted codes are pairwise distinct, none of them is
an initial store code, and none of them is blank. -/
def StageInv (ex0 : List String) (acc : StageAcc) : Prop :=
  acc.existing = ex0 ++ acc.valid.map (fun x => x.2.code) ∧
  (acc.valid.map (fun x => x.2.code)).Nodup ∧
  (∀ x ∈ acc.valid, x.2.code ∉ ex0) ∧
  (∀ x ∈ acc.valid, x.2.code ≠ "")

lemma stageStep_inv (P : Parsers) (now : Int) (ex0 : List String) (acc : StageAcc)
    (ir : Nat × Row) (h : StageInv ex0 acc) : StageInv ex0 (stageStep P now acc ir) := by
  obtain ⟨h1, h2, h3, h4⟩ := h
  cases hpr : procRow P now acc.existing ir.2 with
  | rejected reason => rw [stageStep, hpr]; exact ⟨h1, h2, h3, h4⟩
  | dupSkipped c => rw [stageStep, hpr]; exact ⟨h1, h2, h3, h4⟩
  | accepted cl =>
      obtain ⟨hceq, hcne, hcnotin⟩ := procRow_accepted_facts P now acc.existing ir.2 cl hpr
      have hclnotin : cl.code ∉ acc.existing := by rw [hceq]; exact hcnotin
      rw [stageStep, hpr]
      refine ⟨?_, ?_, ?_, ?_⟩
      · show acc.existing ++ [cl.code] =
          ex0 ++ (acc.valid ++ [(ir.1, cl)]).map (fun x => x.2.code)
        rw [h1, List.map_append, List.map_cons, List.map_nil, List.append_assoc]
      · show ((acc.valid ++ [(ir.1, cl)]).map (fun x => x.2.code)).Nodup
        rw [List.map_append, List.map_cons, List.map_nil]
        refine List.Nodup.append h2 (by simp) ?_
        rw [List.disjoint_singleton]
        intro hmem
        exact hclnotin (by rw [h1]; exact List.mem_append_right _ hmem)
      · intro x hx
        rcases List.mem_append.mp hx with h' | h'
        · exact h3 x h'
        · rw [List.mem_singleton] at h'
          subst h'
          intro hmem
          exact hclnotin (by rw [h1]; exact List.mem_append_left _ hmem)
      · intro x hx
        rcases List.mem_append.mp hx with h' | h'
        · exact h4 x h'
        · rw [List.mem_singleton] at h'
          subst h'
          show cl.code ≠ ""
          rw [hceq]; exact hcne

lemma foldl_inv (P : Parsers) (now : Int) (ex0 : List String) :
    ∀ (l : List (Nat × Row)) (acc : StageAcc), StageInv ex0 acc →
      StageInv ex0 (l.foldl (stageStep P now) acc) := by
  intro l
  induction l with
  | nil => intro acc h; exact h
  | cons hd tl ih =>
      intro acc h
      simp only [List.foldl_cons]
      exact ih _ (stageStep_inv P now ex0 acc hd h)

/-- A row whose non-blank code is in the duplicate set at loop entry ends
up in the skipped bucket with its row number. -/
lemma foldl_skip_of_existing (P : Parsers) (now : Int) :
    ∀ (l : List (Nat × Row)) (acc : StageAcc) (n : Nat) (r : Row),
      (n, r) ∈ l → cellStr r.code ≠ "" → cellStr r.code ∈ acc.existing →
      (n, cellStr r.code) ∈ (l.foldl (stageStep P now) acc).skipped := by
  intro l
  induction l with
  | nil => intro acc n r h; cases h
  | cons hd tl ih =>
      intro acc n r hmem hne hex
      simp only [List.foldl_cons]
      rcases List.mem_cons.mp hmem with heq | htl
      · have hstep : (stageStep P now acc hd).skipped =
            acc.skipped ++ [(n, cellStr r.code)] := by
          rw [← heq, stageStep]
          rw [show procRow P now acc.existing (n, r).2 = .dupSkipped (cellStr r.code) from
            procRow_dup P now acc.existing r hne hex]
        apply foldl_skipped_mono P now tl (stageStep P now acc hd)
        rw [hstep]
        exact List.mem_append_right _ (by simp)
      · exact ih (stageStep P now acc hd) n r htl hne
          (stageStep_existing_mono P now acc hd hex)

/-- The bucket row numbers come from positions: `numberRows` tags rows
with `2, 3, 4, ...`. -/
lemma numberRows_map_fst (rows : List Row) :
    (numberRows rows).map Prod.fst = (List.range rows.length).map (fun i => i + 2) := by
  unfold numberRows
  rw [List.map_map, ← List.enum_map_fst rows, List.map_map]
  rfl

/-- The row numbers of a file are strictly increasing. -/
lemma numberRows_pairwise (rows : List Row) :
    List.Pairwise (fun a b => a < b) ((numberRows rows).map Prod.fst) := by
  rw [numberRows_map_fst]
  exact (List.pairwise_lt_range rows.length).map _ (fun a b h => by omega)

/-- If some strictly earlier row was accepted with the same code, the
later row ends up in the skipped bucket: positional in-file duplicate
detection. -/
lemma foldl_dup_skip (P : Parsers) (now : Int) (ex0 : List String) :
    ∀ (l : List (Nat × Row)) (acc : StageAcc),
      StageInv ex0 acc →
      List.Pairwise (fun a b => a < b) (l.map Prod.fst) →
      (∀ x ∈ acc.valid, ∀ ir ∈ l, x.1 < ir.1) →
      ∀ ir ∈ l, ∀ x ∈ (l.foldl (stageStep P now) acc).valid,
        x.1 < ir.1 → x.2.code = cellStr ir.2.code →
        (ir.1, cellStr ir.2.code) ∈ (l.foldl (stageStep P now) acc).skipped := by
  intro l
  induction l with
  | nil => intro acc _ _ _ ir hir; cases hir
  | cons hd tl ih =>
      intro acc hinv hpw hprec ir hir x hx hlt hcode
      simp only [List.map_cons] at hpw
      have hpw1 := (List.pairwise_cons.mp hpw).1
      have hpw2 := (List.pairwise_cons.mp hpw).2
      simp only [List.foldl_cons] at hx ⊢
      rcases List.mem_cons.mp hir with heq | htl
      · subst heq
        rcases foldl_valid_origin P now tl (stageStep P now acc ir) x hx with hxv | hxpos
        · have hxacc : x ∈ acc.valid := by
            cases hpr : procRow P now acc.existing ir.2 with
            | rejected reason => simpa only [stageStep, hpr] using hxv
            | dupSkipped c => simpa only [stageStep, hpr] using hxv
            | accepted cl =>
                simp only [stageStep, hpr] at hxv
                rcases List.mem_append.mp hxv with h' | h'
                · exact h'
                · rw [List.mem_singleton] at h'
                  rw [h'] at hlt
                  exact absurd hlt (by simp)
          obtain ⟨h1, _, _, h4⟩ := hinv
          have hxcode_ex : x.2.code ∈ acc.existing := by
            rw [h1]
            exact List.mem_append_right _ (List.mem_map.mpr ⟨x, hxacc, rfl⟩)
          have hne : cellStr ir.2.code ≠ "" := hcode ▸ h4 x hxacc
          have hex : cellStr ir.2.code ∈ acc.existing := hcode ▸ hxcode_ex
          have hstep : (stageStep P now acc ir).skipped =
              acc.skipped ++ [(ir.1, cellStr ir.2.code)] := by
            simp only [stageStep, procRow_dup P now acc.existing ir.2 hne hex]
          apply foldl_skipped_mono P now tl (stageStep P now acc ir)
          rw [hstep]
          exact List.mem_append_right _ (by simp)
        · have := hpw1 x.1 hxpos
          omega
      · refine ih (stageStep P now acc hd) (stageStep_inv P now ex0 acc hd hinv) hpw2
          ?_ ir htl x hx hlt hcode
        intro y hy jr hjr
        cases hpr : procRow P now acc.existing hd.2 with
        | rejected reason =>
            simp only [stageStep, hpr] at hy
            exact hprec y hy jr (List.mem_cons_of_mem _ hjr)
        | dupSkipped c =>
            simp only [stageStep, hpr] at hy
            exact hprec y hy jr (List.mem_cons_of_mem _ hjr)
        | accepted cl =>
            simp only [stageStep, hpr] at hy
            rcases List.mem_append.mp hy with h' | h'
            · exact hprec y h' jr (List.mem_cons_of_mem _ hjr)
            · rw [List.mem_singleton] at h'
              rw [h']
              exact hpw1 jr.1 (List.mem_map.mpr ⟨jr, hjr, rfl⟩)

/-- C7: duplicate handling of the import row loop.  In every preview:
the accepted codes are pairwise distinct (only the first occurrence of a
code is accepted), no accepted code was already in the Record Store,
a row whose non-blank code is in the Record Store is skipped as a
duplicate with its row number, and a row whose code equals the code of an
earlier accepted row is likewise skipped — reported in the skipped bucket
(hence, by the bucket structure, not staged and not among the rejects). -/
theorem c7_duplicate_codes_skipped (P : Parsers) (now : Int) (ex : List String)
    (rawCols : List String) (rows : List Row) (p : ImportPreview)
    (hp : import_excel P now ex rawCols rows = .preview p) :
    (p.valid.map (fun x => x.2.code)).Nodup ∧
    (∀ x ∈ p.valid, x.2.code ∉ ex) ∧
    (∀ ir ∈ numberRows rows, cellStr ir.2.code ≠ "" → cellStr ir.2.code ∈ ex →
      (ir.1, cellStr ir.2.code) ∈ p.skipped) ∧
    (∀ ir ∈ numberRows rows, ∀ x ∈ p.valid, x.1 < ir.1 → x.2.code = cellStr ir.2.code →
      (ir.1, cellStr ir.2.code) ∈ p.skipped) := by
  have hpp := import_excel_preview_inv P now ex rawCols rows p hp
  subst hpp
  have hinv0 : StageInv ex ⟨ex, [], [], []⟩ :=
    ⟨by simp, by simp, by simp, by simp⟩
  have hinv := foldl_inv P now ex (numberRows rows) ⟨ex, [], [], []⟩ hinv0
  refine ⟨hinv.2.1, hinv.2.2.1, ?_, ?_⟩
  · intro ir hir hne hex
    obtain ⟨n, r⟩ := ir
    exact foldl_skip_of_existing P now (numberRows rows) ⟨ex, [], [], []⟩ n r hir hne hex
  · intro ir hir x hx hlt hcode
    exact foldl_dup_skip P now ex (numberRows rows) ⟨ex, [], [], []⟩ hinv0
      (numberRows_pairwise rows) (by simp) ir hir x hx hlt hcode

/-- C7 witness: a two-row file repeating code `"A"` — the first occurrence
is accepted, the second lands in the skipped bucket as row 3. -/
theorem c7_duplicate_codes_witness :
    (([((2 : Nat), Cleaned.mk "A" none (some 100) (some 100) (some 432100) 5 "days"
        none none 1 0)]).map (fun x => x.2.code)).Nodup ∧
    (∀ x ∈ [((2 : Nat), Cleaned.mk "A" none (some 100) (some 100) (some 432100) 5 "days"
        none none 1 0)], x.2.code ∉ ([] : List String)) ∧
    (∀ ir ∈ numberRows
        [Row.mk (some "A") none (some "2024") (some "5") (some "days") none none none,
         Row.mk (some "A") none (some "2024") (some "5") (some "days") none none none],
      cellStr ir.2.code ≠ "" → cellStr ir.2.code ∈ ([] : List String) →
      (ir.1, cellStr ir.2.code) ∈ [((3 : Nat), "A")]) ∧
    (∀ ir ∈ numberRows
        [Row.mk (some "A") none (some "2024") (some "5") (some "days") none none none,
         Row.mk (some "A") none (some "2024") (some "5") (some "days") none none none],
      ∀ x ∈ [((2 : Nat), Cleaned.mk "A" none (some 100) (some 100) (some 432100) 5 "days"
        none none 1 0)],
      x.1 < ir.1 → x.2.code = cellStr ir.2.code →
      (ir.1, cellStr ir.2.code) ∈ [((3 : Nat), "A")]) :=
  c7_duplicate_codes_skipped
    ⟨fun _ => some 100, fun s => if s = "5" then some 5 else none, fun _ => none⟩ 0 []
    _EXPECTED_COLS
    [Row.mk (some "A") none (some "2024") (some "5") (some "days") none none none,
     Row.mk (some "A") none (some "2024") (some "5") (some "days") none none none]
    ⟨[(2, Cleaned.mk "A" none (some 100) (some 100) (some 432100) 5 "days" none none 1 0)],
     [(3, "A")], [], true, false⟩ (by decide)

/-- C9: the `max_redemptions` intake of the import row loop, for a row
that passes every earlier check: a blank (or absent) cell defaults the
field to 1 and the row is accepted, while a non-blank cell that fails to
parse, or parses below 1, rejects the row with `Invalid max_redemptions`. -/
theorem c9_max_redemptions_blank_defaults_nonblank_rejects
    (P : Parsers) (now : Int) (ex : List String) (r : Row)
    (hcode : cellStr r.code ≠ "") (hdup : cellStr r.code ∉ ex)
    (hissued : ∃ iv, resolveIssued P r.issued_at = some iv)
    (hval : ∃ vs v, r.validity_value = some vs ∧ P.parseNum vs = some v ∧ 0 ≤ v)
    (hunit : ∃ u, resolveUnit r.validity_unit = some u) :
    ((r.max_redemptions = none ∨ (∃ s, r.max_redemptions = some s ∧ trimStr s = "")) →
      ∃ cl, procRow P now ex r = .accepted cl ∧ cl.max_redemptions = 1) ∧
    (∀ s, r.max_redemptions = some s → trimStr s ≠ "" →
      (P.parseNum s = none ∨ ∃ m, P.parseNum s = some m ∧ m < 1) →
      procRow P now ex r = .rejected "Invalid max_redemptions") := by
  obtain ⟨iv, hiv⟩ := hissued
  obtain ⟨vs, v, hvs, hpv, hv0⟩ := hval
  obtain ⟨u, hu⟩ := hunit
  have hred : ∀ mr : Option Int, resolveMaxRedemptions P r.max_redemptions = mr →
      procRow P now ex r = (match mr with
        | none => .rejected "Invalid max_redemptions"
        | some m =>
          if m < 1 then .rejected "Invalid max_redemptions"
          else .accepted
            ⟨cellStr r.code, r.description.map trimStr, some iv, some iv,
             some (compute_valid_to now (some iv) (some v) (some u)), v, u,
             r.issued_to.map trimStr, r.tags.map trimStr, m, 0⟩) := by
    intro mr hmr
    simp only [procRow, hiv, hvs, hpv, hu, hmr]
    rw [if_neg hcode, if_neg hdup, if_neg (not_lt.mpr hv0)]
  constructor
  · intro hm
    have hone : resolveMaxRedemptions P r.max_redemptions = some 1 := by
      rcases hm with h | ⟨s, hs, hts⟩
      · simp [resolveMaxRedemptions, h]
      · simp [resolveMaxRedemptions, hs, hts]
    have h := hred (some 1) hone
    simp only [lt_self_iff_false, if_false] at h
    exact ⟨_, h, rfl⟩
  · intro s hs hts hbad
    rcases hbad with hn | ⟨m, hm', hlt⟩
    · have : resolveMaxRedemptions P r.max_redemptions = none := by
        simp [resolveMaxRedemptions, hs, hts, hn]
      exact hred none this
    · have : resolveMaxRedemptions P r.max_redemptions = some m := by
        simp [resolveMaxRedemptions, hs, hts, hm']
      rw [hred (some m) this]
      simp [hlt]

/-- C9 witness: with a parser that reads `"5"` and fails on `"x"`, a row
with a blank `max_redemptions` is accepted with the field defaulted to 1,
and the same row with `max_redemptions = "x"` is rejected. -/
theorem c9_max_redemptions_witness :
    (∃ cl, procRow
        ⟨fun _ => some 100, fun s => if s = "5" then some 5 else none, fun _ => none⟩ 0 []
        (Row.mk (some "A") none (some "2024") (some "5") (some "days") none none none) =
        .accepted cl ∧ cl.max_redemptions = 1) ∧
    procRow ⟨fun _ => some 100, fun s => if s = "5" then some 5 else none, fun _ => none⟩ 0 []
        (Row.mk (some "A") none (some "2024") (some "5") (some "days") none none (some "x")) =
      .rejected "Invalid max_redemptions" :=
  ⟨(c9_max_redemptions_blank_defaults_nonblank_rejects
      ⟨fun _ => some 100, fun s => if s = "5" then some 5 else none, fun _ => none⟩ 0 []
      (Row.mk (some "A") none (some "2024") (some "5") (some "days") none none none)
      (by decide) (by decide) ⟨100, by decide⟩ ⟨"5", 5, rfl, by decide, by decide⟩
      ⟨"days", by decide⟩).1 (Or.inl rfl),
   (c9_max_redemptions_blank_defaults_nonblank_rejects
      ⟨fun _ => some 100, fun s => if s = "5" then some 5 else none, fun _ => none⟩ 0 []
      (Row.mk (some "A") none (some "2024") (some "5") (some "days") none none (some "x"))
      (by decide) (by decide) ⟨100, by decide⟩ ⟨"5", 5, rfl, by decide, by decide⟩
      ⟨"days", by decide⟩).2 "x" rfl (by decide) (Or.inl (by decide))⟩

end Kokrokooo
